import Mathlib

/-!
Verification of the nmap scan-invocation and XML-normalization core
(`nmap_scanner.py`): `run_scan` builds an nmap command line, runs it,
and parses the XML output via `_parse_nmap_xml` into a nested result,
or returns an error value.

The embedding below translates that Python code shallowly:
* XML elements (as consumed through `xml.etree.ElementTree`) become the
  `Element` inductive; `Element.get`, `Element.find`, `Element.findall`
  mirror the ElementTree accessors used by the source (attribute lookup,
  first matching direct child, all matching direct children).
* Python's truthiness of an ElementTree element (`if service_el:`) is
  `Element.toBool`: true exactly when the element has child elements.
* A Python `AttributeError` raised by calling `.get` on `None` becomes
  the `PyErr` error of the `Except` monad threaded through the parser.
* The external process and the stdlib XML parser are outside the core;
  they are parameters (`Env`): `exec` maps the argument vector to the
  observed process behaviour, `fromstring` is the XML parser (`none`
  standing for `ET.ParseError`).
* Python dictionaries keyed by address type become insertion-ordered
  association lists with in-place update (`dictInsert` / `dictLookup`).
-/

namespace NmapScanner

/-- An XML element as exposed by `xml.etree.ElementTree`: a tag, an
attribute list and the list of child elements (in document order). -/
inductive Element : Type where
  | mk (tag : String) (attrib : List (String × String)) (children : List Element)

def Element.tag : Element → String
  | .mk t _ _ => t

def Element.attrib : Element → List (String × String)
  | .mk _ a _ => a

def Element.children : Element → List Element
  | .mk _ _ c => c

/-- Attribute lookup `element.get(key)`: `None` when absent. -/
def Element.get (e : Element) (key : String) : Option String :=
  (e.attrib.find? (fun p => p.1 == key)).map (fun p => p.2)

/-- The accessor `element.findall(tag)`: all direct children with the
given tag, in document order. -/
def Element.findall (e : Element) (t : String) : List Element :=
  e.children.filter (fun c => c.tag == t)

/-- The accessor `element.find(tag)`: the first direct child with the
given tag, or `None`. -/
def Element.find (e : Element) (t : String) : Option Element :=
  e.children.find? (fun c => c.tag == t)

/-- Python truthiness of an ElementTree element: an element with no
child elements is falsy (`len(element) == 0`), regardless of its
attributes. This is what `if service_el:` in the source tests. -/
def Element.toBool (e : Element) : Bool :=
  !e.children.isEmpty

/-- A Python exception escaping `_parse_nmap_xml` (the `AttributeError`
raised by `None.get(...)` when a required sub-element is missing),
carrying its `str(e)` text. -/
inductive PyErr : Type where
  | attributeError (msg : String)

/-- The text `str(e)` of the exception. -/
def pyErrStr : PyErr → String
  | .attributeError m => m

/-- The `AttributeError` produced by `find(...)` returning `None`
followed by `.get(...)`. -/
def noneGetErr : PyErr :=
  .attributeError "\x27NoneType\x27 object has no attribute \x27get\x27"

/-- One entry of the `hostnames` list: `{'name': ..., 'type': ...}`. -/
structure Hostname where
  name : Option String
  type : Option String
deriving Repr

/-- The three service fields written together by the source when the
service element is taken (`service_name`, `product`, `version`); each
may still be `None` when the attribute is missing on the element. -/
structure ServiceFields where
  service_name : Option String
  product : Option String
  version : Option String
deriving Repr

/-- One entry of the `ports` list. `service = none` models the service
keys being absent from the Python dict altogether (the `if service_el:`
branch not taken); `service = some _` models the three keys present. -/
structure PortResult where
  protocol : Option String
  portid : Option String
  state : Option String
  service : Option ServiceFields
deriving Repr

/-- One entry of the `hosts` list. `addresses` is the Python dict as an
insertion-ordered association list. -/
structure HostResult where
  status : Option String
  addresses : List (Option String × Option String)
  hostnames : List Hostname
  ports : List PortResult
deriving Repr

/-- The success dictionary returned by `_parse_nmap_xml`: keys
`scan_args`, `start_time`, `hosts` (and never `error`). -/
structure ScanResult where
  scan_args : Option String
  start_time : Option String
  hosts : List HostResult
deriving Repr

/-- The outcome of `run_scan`: either the parsed dictionary or the
`{"error": msg}` dictionary. The source returns one dict or the other;
the success dict never carries an `error` key, so the outcome is a sum. -/
inductive ScanOutcome : Type where
  | ok (r : ScanResult)
  | err (message : String)

/-- Membership test of a key in the dict (`key in d` / updating an
existing key). -/
def dictMem : List (Option String × Option String) → Option String → Bool
  | [], _ => false
  | p :: ps, k => if p.1 = k then true else dictMem ps k

/-- Assignment `d[k] = v` on a Python dict: update in place when the
key exists (keeping its position), append otherwise. -/
def dictInsert (d : List (Option String × Option String))
    (k v : Option String) : List (Option String × Option String) :=
  if dictMem d k then d.map (fun p => if p.1 = k then (k, v) else p)
  else d ++ [(k, v)]

/-- Lookup on the association list: the value at the key. -/
def dictLookup : List (Option String × Option String) → Option String →
    Option (Option String)
  | [], _ => none
  | p :: ps, k => if p.1 = k then some p.2 else dictLookup ps k

/-- The loop body sequencing of the source: parse each element in order,
the first exception aborting the whole traversal. -/
def exceptMap (f : α → Except PyErr β) : List α → Except PyErr (List β)
  | [] => .ok []
  | x :: xs =>
    match f x with
    | .error e => .error e
    | .ok y =>
      match exceptMap f xs with
      | .error e => .error e
      | .ok ys => .ok (y :: ys)

/-- The per-port body of `_parse_nmap_xml`: read `protocol`/`portid`,
read the required `state` sub-node (raising `AttributeError` when it is
missing), then read the service attributes only when the service element
is present AND truthy (has child elements). -/
def parsePort (p : Element) : Except PyErr PortResult :=
  match p.find "state" with
  | none => .error noneGetErr
  | some st =>
    let base : PortResult :=
      { protocol := p.get "protocol", portid := p.get "portid",
        state := st.get "state", service := none }
    match p.find "service" with
    | none => .ok base
    | some se =>
      if se.toBool then
        .ok { base with
              service := some ⟨se.get "name", se.get "product", se.get "version"⟩ }
      else .ok base

/-- The address-collection loop of `_parse_nmap_xml`:
`host_data['addresses'][addrtype] = addr` over the address children. -/
def hostAddresses (h : Element) : List (Option String × Option String) :=
  (h.findall "address").foldl
    (fun d a => dictInsert d (a.get "addrtype") (a.get "addr")) []

/-- The hostname-collection block: empty when the `hostnames` container
is absent. -/
def hostHostnames (h : Element) : List Hostname :=
  match h.find "hostnames" with
  | none => []
  | some hs =>
    (hs.findall "hostname").map
      (fun hn => { name := hn.get "name", type := hn.get "type" })

/-- The port-collection block: an empty list when the `ports` container
is absent, otherwise each port entry parsed in document order with the
first exception aborting. -/
def hostPorts (h : Element) : Except PyErr (List PortResult) :=
  match h.find "ports" with
  | none => .ok []
  | some ps => exceptMap parsePort (ps.findall "port")

/-- The per-host body of `_parse_nmap_xml`: the required `status`
sub-node (raising `AttributeError` when missing), the address dict, the
hostnames, and the ports (empty when the `ports` container is absent). -/
def parseHost (h : Element) : Except PyErr HostResult :=
  match h.find "status" with
  | none => .error noneGetErr
  | some st =>
    match hostPorts h with
    | .error e => .error e
    | .ok ports =>
      .ok { status := st.get "state", addresses := hostAddresses h,
            hostnames := hostHostnames h, ports := ports }

/-- The function `_parse_nmap_xml`: the root attributes
`args`/`startstr` and the host list, in document order. -/
def parseNmapXml (root : Element) : Except PyErr ScanResult :=
  match exceptMap parseHost (root.findall "host") with
  | .error e => .error e
  | .ok hosts =>
    .ok { scan_args := root.get "args", start_time := root.get "startstr",
          hosts := hosts }

/-- Leading-segment test on character lists, used to define Python
substring containment. -/
def leadsList : List Char → List Char → Bool
  | [], _ => true
  | _ :: _, [] => false
  | a :: as, b :: bs => a == b && leadsList as bs

/-- Python's `needle in hay` substring containment on character lists. -/
def occursIn (needle : List Char) : List Char → Bool
  | [] => needle.isEmpty
  | c :: t => leadsList needle (c :: t) || occursIn needle t

/-- The characters Python's `str.split()` (no separator) splits on. -/
def pyIsSpace (c : Char) : Bool :=
  c == ' ' || c == '\t' || c == '\n' || c == '\r' || c == '\x0b' || c == '\x0c'

/-- Worker for `str.split()`: runs of whitespace separate words, empty
words are dropped; `acc` is the current word, reversed. -/
def splitWsAux : List Char → List Char → List String
  | [], acc => if acc = [] then [] else [String.mk acc.reverse]
  | c :: cs, acc =>
    if pyIsSpace c then
      if acc = [] then splitWsAux cs []
      else String.mk acc.reverse :: splitWsAux cs []
    else splitWsAux cs (c :: acc)

/-- Python's `command.split()` with no separator. -/
def pySplit (s : String) : List String :=
  splitWsAux s.data []

/-- Lines 21–22 of the source: append `" -oX -"` unless the literal
substring `"-oX -"` already occurs in the options string. -/
def effectiveOptions (options : String) : String :=
  if occursIn ("-oX -").data options.data then options
  else options ++ " -oX -"

/-- The command string interpolation of line 24 of the source, followed
by `command.split()`. -/
def buildCommand (host options : String) : List String :=
  pySplit ("nmap " ++ effectiveOptions options ++ " " ++ host)

/-- The observed behaviour of the spawned process: `Popen` raising
`FileNotFoundError`, some other exception during spawn/communicate, or
a completed run with exit status, stdout and stderr. -/
inductive ProcBehavior : Type where
  | fileNotFound
  | raises (e : PyErr)
  | runs (returncode : Int) (stdout : String) (stderr : String)

/-- The external world `run_scan` interacts with: the process launcher
(keyed by the argument vector) and the stdlib XML parser
(`ET.fromstring`, with `none` standing for `ET.ParseError`). -/
structure Env : Type where
  exec : List String → ProcBehavior
  fromstring : String → Option Element

/-- The function `run_scan`: build the command, run it, and translate every observed
behaviour into exactly one returned dictionary — the error messages and
the branch order are those of the source (non-zero exit checked first,
then empty output, then XML parsing, with `AttributeError` from the
parser caught by the outer `except Exception`). -/
def run_scan (env : Env) (host options : String) : ScanOutcome :=
  match env.exec (buildCommand host options) with
  | .fileNotFound =>
    .err "Nmap command not found. Ensure Nmap is installed and in PATH."
  | .raises e =>
    .err ("An unexpected error occurred: " ++ pyErrStr e)
  | .runs rc stdout stderr =>
    if rc ≠ 0 then .err ("Nmap execution failed: " ++ stderr)
    else if stdout = "" then
      .err "Nmap produced no output. Check command and installation."
    else
      match env.fromstring stdout with
      | none => .err "Failed to parse Nmap XML output. Ensure Nmap outputs XML."
      | some root =>
        match parseNmapXml root with
        | .ok r => .ok r
        | .error e => .err ("An unexpected error occurred: " ++ pyErrStr e)

/-- Validity of a port element: the required `state` sub-node exists. -/
def portOk (p : Element) : Bool :=
  (p.find "state").isSome

/-- Validity of a host element: the required `status` sub-node exists
and every port entry is valid. -/
def hostOk (h : Element) : Bool :=
  (h.find "status").isSome &&
    (match h.find "ports" with
     | none => true
     | some ps => (ps.findall "port").all portOk)

/-- A port element whose service sub-element carries only a `name`
attribute and (as in real nmap output) has no child elements. -/
def svcPort : Element :=
  .mk "port" [("protocol", "tcp"), ("portid", "22")]
    [.mk "state" [("state", "open")] [],
     .mk "service" [("name", "ssh")] []]

/-- The minimal valid host of the round-trip example of the spec. -/
def sampleHost : Element :=
  .mk "host" []
    [.mk "status" [("state", "up")] [],
     .mk "address" [("addrtype", "ipv4"), ("addr", "10.0.0.1")] [],
     .mk "ports" []
       [.mk "port" [("protocol", "tcp"), ("portid", "22")]
          [.mk "state" [("state", "open")] []]]]

/-- A valid root document with one host. -/
def sampleRoot : Element :=
  .mk "nmaprun" [("args", "nmap -sV -oX - h"), ("startstr", "now")] [sampleHost]

/-- A root document with no host elements. -/
def emptyRoot : Element :=
  .mk "nmaprun" [("args", "nmap -sV -oX - h"), ("startstr", "now")] []

/-- A root document whose single host lacks the required status
sub-node. -/
def badRoot : Element :=
  .mk "nmaprun" [] [.mk "host" [] []]

/-- A host element that repeats the `ipv4` address type. -/
def dupHost : Element :=
  .mk "host" []
    [.mk "status" [("state", "up")] [],
     .mk "address" [("addrtype", "ipv4"), ("addr", "10.0.0.1")] [],
     .mk "address" [("addrtype", "ipv4"), ("addr", "10.0.0.2")] []]

/-- A world where the process exits with status 1 and stderr
`QUITTING!`. -/
def envQuit : Env :=
  { exec := fun _ => .runs 1 "" "QUITTING!", fromstring := fun _ => none }

/-- A world where the process succeeds but its output is not
well-formed XML. -/
def envMalformed : Env :=
  { exec := fun _ => .runs 0 "not xml" "", fromstring := fun _ => none }

/-- A world where the process succeeds and its output parses to
`badRoot`. -/
def envBad : Env :=
  { exec := fun _ => .runs 0 "xml" "", fromstring := fun _ => some badRoot }

/-! ## Helper lemmas about the traversal combinators -/

theorem exceptMap_ok_of_all (f : α → Except PyErr β) (l : List α)
    (h : ∀ x ∈ l, ∃ y, f x = .ok y) :
    ∃ ys, exceptMap f l = .ok ys ∧ ys.length = l.length ∧
      ∀ i (h1 : i < l.length) (h2 : i < ys.length),
        f (l.get ⟨i, h1⟩) = .ok (ys.get ⟨i, h2⟩) := by
  induction l with
  | nil => exact ⟨[], rfl, rfl, fun i h1 _ => absurd h1 (Nat.not_lt_zero i)⟩
  | cons x xs ih =>
    obtain ⟨y, hy⟩ := h x (List.mem_cons_self x xs)
    obtain ⟨ys, hys, hlen, hget⟩ := ih (fun z hz => h z (List.mem_cons_of_mem x hz))
    refine ⟨y :: ys, ?_, by simp [hlen], ?_⟩
    · unfold exceptMap
      rw [hy, hys]
    · intro i h1 h2
      match i with
      | 0 => exact hy
      | Nat.succ j =>
        exact hget j (Nat.lt_of_succ_lt_succ h1) (Nat.lt_of_succ_lt_succ h2)

theorem exceptMap_error_of_mem (f : α → Except PyErr β) (l : List α) (x : α)
    (hx : x ∈ l) (e : PyErr) (he : f x = .error e) :
    ∃ e2, exceptMap f l = .error e2 := by
  induction l with
  | nil => cases hx
  | cons z zs ih =>
    unfold exceptMap
    cases hz : f z with
    | error e3 => exact ⟨e3, rfl⟩
    | ok y =>
      rcases List.mem_cons.mp hx with h | h
      · subst h
        rw [hz] at he
        simp at he
      · obtain ⟨e2, h2⟩ := ih h
        rw [h2]
        exact ⟨e2, rfl⟩

/-! ## Validity versus success and failure of the per-entry parsers -/

theorem parsePort_ok_of_portOk (p : Element) (h : portOk p = true) :
    ∃ pr, parsePort p = .ok pr := by
  unfold portOk at h
  cases hst : p.find "state" with
  | none =>
    rw [hst] at h
    simp at h
  | some st =>
    simp only [parsePort, hst]
    cases hsv : p.find "service" with
    | none =>
      simp only [hsv]
      exact ⟨_, rfl⟩
    | some se =>
      simp only [hsv]
      by_cases hb : se.toBool = true
      · rw [if_pos hb]
        exact ⟨_, rfl⟩
      · rw [if_neg hb]
        exact ⟨_, rfl⟩

theorem parsePort_error_of_not_portOk (p : Element) (h : portOk p = false) :
    parsePort p = .error noneGetErr := by
  unfold portOk at h
  cases hst : p.find "state" with
  | none =>
    unfold parsePort
    rw [hst]
  | some st =>
    rw [hst] at h
    simp at h

theorem hostPorts_ok_of_hostOk (h : Element) (hv : hostOk h = true) :
    ∃ ports, hostPorts h = .ok ports := by
  unfold hostOk at hv
  rw [Bool.and_eq_true] at hv
  obtain ⟨-, hports⟩ := hv
  cases hfp : h.find "ports" with
  | none =>
    simp only [hostPorts, hfp]
    exact ⟨[], rfl⟩
  | some ps =>
    rw [hfp] at hports
    have hall : ∀ p ∈ ps.findall "port", ∃ pr, parsePort p = .ok pr := by
      intro p hp
      exact parsePort_ok_of_portOk p (by simpa using List.all_eq_true.mp hports p hp)
    obtain ⟨prs, hprs, -, -⟩ := exceptMap_ok_of_all parsePort (ps.findall "port") hall
    simp only [hostPorts, hfp]
    exact ⟨prs, hprs⟩

theorem parseHost_ok_of_hostOk (h : Element) (hv : hostOk h = true) :
    ∃ hr, parseHost h = .ok hr := by
  have hst : (h.find "status").isSome = true := by
    unfold hostOk at hv
    rw [Bool.and_eq_true] at hv
    exact hv.1
  cases hfs : h.find "status" with
  | none =>
    rw [hfs] at hst
    simp at hst
  | some st =>
    obtain ⟨ports, hports⟩ := hostPorts_ok_of_hostOk h hv
    simp only [parseHost, hfs, hports]
    exact ⟨_, rfl⟩

theorem parseHost_error_of_not_hostOk (h : Element) (hv : hostOk h = false) :
    ∃ e, parseHost h = .error e := by
  unfold hostOk at hv
  cases hfs : h.find "status" with
  | none =>
    refine ⟨noneGetErr, ?_⟩
    unfold parseHost
    rw [hfs]
  | some st =>
    rw [hfs] at hv
    simp only [Option.isSome_some, Bool.true_and] at hv
    cases hfp : h.find "ports" with
    | none =>
      rw [hfp] at hv
      simp at hv
    | some ps =>
      rw [hfp] at hv
      obtain ⟨p, hp, hnp⟩ := List.all_eq_false.mp hv
      have hperr : parsePort p = .error noneGetErr :=
        parsePort_error_of_not_portOk p (by simpa using hnp)
      obtain ⟨e2, he2⟩ :=
        exceptMap_error_of_mem parsePort (ps.findall "port") p hp noneGetErr hperr
      refine ⟨e2, ?_⟩
      have hhp : hostPorts h = .error e2 := by
        simp only [hostPorts, hfp]
        exact he2
      simp only [parseHost, hfs, hhp]

/-! ## Substring containment lemmas -/

theorem leadsList_self (l : List Char) : leadsList l l = true := by
  induction l with
  | nil => rfl
  | cons c cs ih =>
    unfold leadsList
    rw [ih]
    simp

theorem occursIn_self (l : List Char) : occursIn l l = true := by
  cases l with
  | nil => rfl
  | cons c cs =>
    unfold occursIn
    rw [leadsList_self]
    simp

theorem occursIn_append_left (pre l : List Char) : occursIn l (pre ++ l) = true := by
  induction pre with
  | nil => simpa using occursIn_self l
  | cons p ps ih =>
    rw [List.cons_append]
    show (leadsList l (p :: (ps ++ l)) || occursIn l (ps ++ l)) = true
    rw [ih]
    simp

/-! ## The claims -/

/-- C1. The claim says a port element whose service sub-element carries
only a `name` attribute yields `service_name` populated. The code tests
the service element with Python truthiness (`if service_el:`), which is
false for an element without child elements, so on `svcPort` — whose
service element has the `name` attribute but no children, the shape real
nmap emits — the whole service block is skipped and all three service
fields are absent, even though the service element is present. -/
theorem parsePort_childless_service_skipped :
    parsePort svcPort =
      .ok { protocol := some "tcp", portid := some "22",
            state := some "open", service := none } ∧
    (svcPort.find "service").isSome = true ∧
    (Element.mk "service" [("name", "ssh")] []).toBool = false :=
  ⟨rfl, rfl, rfl⟩

/-- C2. A single call to `run_scan` returns exactly one of a parsed
result or an error value — never both, never neither. The function is
total on every observable behaviour of the external process and the XML
parser (the source catches `FileNotFoundError`, `ET.ParseError` and
every other `Exception`), so no exception crosses the caller boundary. -/
theorem run_scan_exactly_one_outcome (env : Env) (host options : String) :
    ((∃ r, run_scan env host options = .ok r) ∧
      ¬∃ m, run_scan env host options = .err m) ∨
    ((∃ m, run_scan env host options = .err m) ∧
      ¬∃ r, run_scan env host options = .ok r) := by
  cases hr : run_scan env host options with
  | ok r =>
    refine Or.inl ⟨⟨r, rfl⟩, ?_⟩
    rintro ⟨m, hm⟩
    simp at hm
  | err m =>
    refine Or.inr ⟨⟨m, rfl⟩, ?_⟩
    rintro ⟨r2, hr2⟩
    simp at hr2

theorem run_scan_exactly_one_outcome_witness :
    ((∃ r, run_scan envQuit "h" "-sV" = .ok r) ∧
      ¬∃ m, run_scan envQuit "h" "-sV" = .err m) ∨
    ((∃ m, run_scan envQuit "h" "-sV" = .err m) ∧
      ¬∃ r, run_scan envQuit "h" "-sV" = .ok r) :=
  run_scan_exactly_one_outcome envQuit "h" "-sV"

/-- C5 counterexample. On non-zero exit with stderr `QUITTING!` the
message produced by the source is `Nmap execution failed: QUITTING!`,
which is not the string `execution failed: QUITTING!` that the claim
says the message is. -/
theorem run_scan_failure_message_not_bare :
    run_scan envQuit "h" "-sV" = .err "Nmap execution failed: QUITTING!" ∧
    ("Nmap execution failed: QUITTING!" : String) ≠
      "execution failed: " ++ "QUITTING!" :=
  ⟨rfl, by decide⟩

/-- C5 (amended). On every invocation whose process exits non-zero,
`run_scan` returns an error whose message is `Nmap execution failed: `
followed by the captured stderr text — so the message contains
`execution failed: ` followed by the stderr text as a substring — and
no parsed result is produced. -/
theorem run_scan_failure_message (env : Env) (host options : String)
    (rc : Int) (out errS : String)
    (hex : env.exec (buildCommand host options) = .runs rc out errS)
    (hrc : rc ≠ 0) :
    run_scan env host options = .err ("Nmap execution failed: " ++ errS) ∧
    occursIn ("execution failed: " ++ errS).data
      ("Nmap execution failed: " ++ errS).data = true ∧
    ¬∃ r, run_scan env host options = .ok r := by
  have hmain : run_scan env host options =
      .err ("Nmap execution failed: " ++ errS) := by
    simp only [run_scan, hex]
    rw [if_pos hrc]
  refine ⟨hmain, ?_, ?_⟩
  · have hdata : ("Nmap execution failed: " ++ errS).data =
        ("Nmap " : String).data ++ ("execution failed: " ++ errS).data := by
      rw [String.data_append, String.data_append]
      rw [(by decide : ("Nmap execution failed: " : String).data =
            ("Nmap " : String).data ++ ("execution failed: " : String).data)]
      rw [List.append_assoc]
    rw [hdata]
    exact occursIn_append_left _ _
  · rintro ⟨r, hr⟩
    rw [hmain] at hr
    simp at hr

theorem run_scan_failure_message_witness :
    (run_scan envQuit "h" "-sV" =
      .err ("Nmap execution failed: " ++ "QUITTING!")) ∧
    occursIn ("execution failed: " ++ "QUITTING!").data
      ("Nmap execution failed: " ++ "QUITTING!").data = true ∧
    ¬∃ r, run_scan envQuit "h" "-sV" = .ok r :=
  run_scan_failure_message envQuit "h" "-sV" 1 "" "QUITTING!" rfl (by decide)

/-- C6. Whenever the process succeeds with non-empty output that the
XML parser rejects (`ET.ParseError`, modelled as `fromstring` returning
`none`), `run_scan` returns the parse-failure error value; being a total
function of the observed behaviour, it propagates no fault. -/
theorem run_scan_malformed_xml (env : Env) (host options : String)
    (out errS : String)
    (hex : env.exec (buildCommand host options) = .runs 0 out errS)
    (hout : out ≠ "")
    (hxml : env.fromstring out = none) :
    run_scan env host options =
      .err "Failed to parse Nmap XML output. Ensure Nmap outputs XML." := by
  simp only [run_scan, hex]
  rw [if_neg (by simp : ¬((0 : Int) ≠ 0)), if_neg hout]
  simp only [hxml]

theorem run_scan_malformed_xml_witness :
    run_scan envMalformed "h" "-sV" =
      .err "Failed to parse Nmap XML output. Ensure Nmap outputs XML." :=
  run_scan_malformed_xml envMalformed "h" "-sV" "not xml" "" rfl (by decide) rfl

/-- C3. For every well-formed document whose host elements all carry
their required sub-nodes, parsing succeeds, the resulting host list has
exactly one entry per host element of the document, and the entry at
every index is the parse of the host element at the same index — order
preserved, with zero hosts yielding an empty list rather than an
error. -/
theorem parse_hosts_length_order (root : Element)
    (hv : (root.findall "host").all hostOk = true) :
    ∃ r, parseNmapXml root = .ok r ∧
      r.hosts.length = (root.findall "host").length ∧
      ∀ i (h1 : i < (root.findall "host").length) (h2 : i < r.hosts.length),
        parseHost ((root.findall "host").get ⟨i, h1⟩) = .ok (r.hosts.get ⟨i, h2⟩) := by
  have hall : ∀ h ∈ root.findall "host", ∃ hr, parseHost h = .ok hr := by
    intro h hh
    exact parseHost_ok_of_hostOk h (by simpa using List.all_eq_true.mp hv h hh)
  obtain ⟨hrs, hmap, hlen, hget⟩ :=
    exceptMap_ok_of_all parseHost (root.findall "host") hall
  refine ⟨{ scan_args := root.get "args", start_time := root.get "startstr",
            hosts := hrs }, ?_, hlen, hget⟩
  simp only [parseNmapXml, hmap]

theorem parse_hosts_length_order_witness :
    (∃ r, parseNmapXml sampleRoot = .ok r ∧
      r.hosts.length = (sampleRoot.findall "host").length ∧
      ∀ i (h1 : i < (sampleRoot.findall "host").length) (h2 : i < r.hosts.length),
        parseHost ((sampleRoot.findall "host").get ⟨i, h1⟩) =
          .ok (r.hosts.get ⟨i, h2⟩)) ∧
    (∃ r, parseNmapXml emptyRoot = .ok r ∧
      r.hosts.length = (emptyRoot.findall "host").length ∧
      ∀ i (h1 : i < (emptyRoot.findall "host").length) (h2 : i < r.hosts.length),
        parseHost ((emptyRoot.findall "host").get ⟨i, h1⟩) =
          .ok (r.hosts.get ⟨i, h2⟩)) :=
  ⟨parse_hosts_length_order sampleRoot (by decide),
   parse_hosts_length_order emptyRoot (by decide)⟩

/-- C4. When the parsed document contains a host entry missing its
required `status` sub-node, or a port entry missing its required `state`
sub-node (both covered by `hostOk _ = false`), the parse raises, the
whole parse aborts with an error, and `run_scan` returns the error
value — no partial result is returned. -/
theorem missing_subnode_aborts_parse (env : Env) (host options : String)
    (root : Element) (out errS : String)
    (hex : env.exec (buildCommand host options) = .runs 0 out errS)
    (hout : out ≠ "")
    (hxml : env.fromstring out = some root)
    (hbad : ∃ h ∈ root.findall "host", hostOk h = false) :
    (∃ e, parseNmapXml root = .error e) ∧
    (∃ m, run_scan env host options = .err m) ∧
    ¬∃ r, run_scan env host options = .ok r := by
  obtain ⟨hEl, hmem, hfail⟩ := hbad
  obtain ⟨e, he⟩ := parseHost_error_of_not_hostOk hEl hfail
  obtain ⟨e2, he2⟩ :=
    exceptMap_error_of_mem parseHost (root.findall "host") hEl hmem e he
  have hp : parseNmapXml root = .error e2 := by
    simp only [parseNmapXml, he2]
  have hrun : run_scan env host options =
      .err ("An unexpected error occurred: " ++ pyErrStr e2) := by
    simp only [run_scan, hex]
    rw [if_neg (by simp : ¬((0 : Int) ≠ 0)), if_neg hout]
    simp only [hxml, hp]
  refine ⟨⟨e2, hp⟩, ⟨_, hrun⟩, ?_⟩
  rintro ⟨r, hr⟩
  rw [hrun] at hr
  simp at hr

theorem missing_subnode_aborts_parse_witness :
    (∃ e, parseNmapXml badRoot = .error e) ∧
    (∃ m, run_scan envBad "h" "-sV" = .err m) ∧
    ¬∃ r, run_scan envBad "h" "-sV" = .ok r :=
  missing_subnode_aborts_parse envBad "h" "-sV" badRoot "xml" "" rfl
    (by decide) rfl ⟨Element.mk "host" [] [], List.mem_singleton.mpr rfl, rfl⟩

/-- C10. The XML-output flag is appended exactly when the literal
substring `-oX -` does not occur in the options string; in particular
`-oX -sV` — whose tokens direct XML output to a file named `-sV`, not
to stdout — already contains that substring, so it is left unchanged
and no flag forcing XML to stdout is added to the command. -/
theorem effectiveOptions_append_iff (options : String) :
    (effectiveOptions options = options ++ " -oX -" ↔
      occursIn ("-oX -").data options.data = false) ∧
    effectiveOptions "-oX -sV" = "-oX -sV" ∧
    buildCommand "h" "-oX -sV" = ["nmap", "-oX", "-sV", "h"] := by
  refine ⟨⟨?_, ?_⟩, rfl, rfl⟩
  · intro heq
    cases hoc : occursIn ("-oX -").data options.data with
    | false => rfl
    | true =>
      unfold effectiveOptions at heq
      rw [if_pos hoc] at heq
      have hlen := congrArg String.length heq
      rw [String.length_append] at hlen
      have h6 : (" -oX -" : String).length = 6 := rfl
      rw [h6] at hlen
      omega
  · intro hc
    unfold effectiveOptions
    rw [if_neg (by simp [hc])]

theorem effectiveOptions_append_iff_witness :
    effectiveOptions "-sV" = "-sV" ++ " -oX -" :=
  (effectiveOptions_append_iff "-sV").1.mpr (by decide)

/-! ## Splitting lemmas for the command line -/

theorem splitWsAux_append_space (xs ys : List Char) :
    ∀ acc, splitWsAux (xs ++ ' ' :: ys) acc =
      splitWsAux xs acc ++ splitWsAux ys [] := by
  induction xs with
  | nil =>
    intro acc
    have hsp : pyIsSpace ' ' = true := rfl
    by_cases hacc : acc = []
    · simp [splitWsAux, hsp, hacc]
    · simp [splitWsAux, hsp, hacc]
  | cons c cs ih =>
    intro acc
    by_cases hc : pyIsSpace c = true
    · by_cases hacc : acc = []
      · simp [splitWsAux, hc, hacc, ih]
      · simp [splitWsAux, hc, hacc, ih]
    · simp [splitWsAux, hc, ih]

theorem splitWsAux_no_space :
    ∀ (l : List Char), l ≠ [] → (∀ c ∈ l, pyIsSpace c = false) →
      ∀ acc, splitWsAux l acc = [String.mk (acc.reverse ++ l)] := by
  intro l
  induction l with
  | nil =>
    intro hne _ _
    cases hne rfl
  | cons c cs ih =>
    intro _ hns acc
    have hc : pyIsSpace c = false := hns c (List.mem_cons_self c cs)
    by_cases hcs : cs = []
    · subst hcs
      simp [splitWsAux, hc]
    · have hrec := ih hcs (fun d hd => hns d (List.mem_cons_of_mem c hd)) (c :: acc)
      simp [splitWsAux, hc, hrec]

/-- C7. For every host (non-empty, without whitespace, as a hostname or
IP is) and every options string not already containing the XML-output
flag substring, the assembled argument vector is the binary name, then
the options tokens, then `-oX`, then `-`, then the host — in that
order. -/
theorem command_token_order (host options : String)
    (hopt : occursIn ("-oX -").data options.data = false)
    (hne : host ≠ "")
    (hns : ∀ c ∈ host.data, pyIsSpace c = false) :
    buildCommand host options = "nmap" :: (pySplit options ++ ["-oX", "-", host]) := by
  have hopts : effectiveOptions options = options ++ " -oX -" := by
    unfold effectiveOptions
    rw [if_neg (by simp [hopt])]
  have hdne : host.data ≠ [] := by
    intro hd
    apply hne
    cases host with
    | mk l => exact congrArg String.mk hd
  have hmk : String.mk host.data = host := by
    cases host with
    | mk l => rfl
  unfold buildCommand
  rw [hopts]
  unfold pySplit
  have hdata : ("nmap " ++ (options ++ " -oX -") ++ " " ++ host).data =
      ['n', 'm', 'a', 'p'] ++ ' ' :: (options.data ++
        (' ' :: (['-', 'o', 'X'] ++ ' ' :: (['-'] ++ ' ' :: host.data)))) := by
    simp only [String.data_append]
    simp
  rw [hdata]
  rw [splitWsAux_append_space, splitWsAux_append_space, splitWsAux_append_space,
      splitWsAux_append_space]
  rw [splitWsAux_no_space host.data hdne hns []]
  have e1 : splitWsAux ['n', 'm', 'a', 'p'] [] = ["nmap"] := rfl
  have e2 : splitWsAux ['-', 'o', 'X'] [] = ["-oX"] := rfl
  have e3 : splitWsAux ['-'] [] = ["-"] := rfl
  rw [e1, e2, e3]
  simp [pySplit, hmk]

theorem command_token_order_witness :
    buildCommand "scanme.nmap.org" "-sV" =
      "nmap" :: (pySplit "-sV" ++ ["-oX", "-", "scanme.nmap.org"]) :=
  command_token_order "scanme.nmap.org" "-sV" (by decide) (by decide) (by decide)

/-! ## Dictionary lemmas for the address mapping -/

theorem dictLookup_map_update_ne (d : List (Option String × Option String))
    (k v k2 : Option String) (hk : k ≠ k2) :
    dictLookup (d.map (fun p => if p.1 = k then (k, v) else p)) k2 =
      dictLookup d k2 := by
  induction d with
  | nil => rfl
  | cons q qs ih =>
    by_cases hq : q.1 = k
    · simp only [List.map_cons]
      rw [if_pos hq]
      simp only [dictLookup]
      rw [if_neg hk, if_neg (show ¬q.1 = k2 by rw [hq]; exact hk)]
      exact ih
    · simp only [List.map_cons]
      rw [if_neg hq]
      simp only [dictLookup]
      rw [ih]

theorem dictLookup_map_update_self (d : List (Option String × Option String))
    (k v : Option String) (hm : dictMem d k = true) :
    dictLookup (d.map (fun p => if p.1 = k then (k, v) else p)) k = some v := by
  induction d with
  | nil => simp [dictMem] at hm
  | cons q qs ih =>
    by_cases hq : q.1 = k
    · simp only [List.map_cons]
      rw [if_pos hq]
      simp only [dictLookup]
      simp
    · simp only [List.map_cons]
      rw [if_neg hq]
      simp only [dictLookup]
      rw [if_neg hq]
      apply ih
      unfold dictMem at hm
      rw [if_neg hq] at hm
      exact hm

theorem dictLookup_append_self (d : List (Option String × Option String))
    (k v : Option String) (hm : dictMem d k = false) :
    dictLookup (d ++ [(k, v)]) k = some v := by
  induction d with
  | nil => simp [dictLookup]
  | cons q qs ih =>
    unfold dictMem at hm
    by_cases hq : q.1 = k
    · rw [if_pos hq] at hm
      simp at hm
    · rw [if_neg hq] at hm
      rw [List.cons_append]
      simp only [dictLookup]
      rw [if_neg hq]
      exact ih hm

theorem dictLookup_append_ne (d : List (Option String × Option String))
    (k v k2 : Option String) (hk : k ≠ k2) :
    dictLookup (d ++ [(k, v)]) k2 = dictLookup d k2 := by
  induction d with
  | nil =>
    simp only [List.nil_append, dictLookup]
    rw [if_neg hk]
  | cons q qs ih =>
    rw [List.cons_append]
    simp only [dictLookup]
    rw [ih]

theorem dictLookup_dictInsert (d : List (Option String × Option String))
    (k v k2 : Option String) :
    dictLookup (dictInsert d k v) k2 =
      if k = k2 then some v else dictLookup d k2 := by
  unfold dictInsert
  by_cases hm : dictMem d k = true
  · rw [if_pos hm]
    by_cases hk : k = k2
    · subst hk
      rw [if_pos rfl]
      exact dictLookup_map_update_self d k v hm
    · rw [if_neg hk]
      exact dictLookup_map_update_ne d k v k2 hk
  · rw [if_neg hm]
    have hm2 : dictMem d k = false := by
      revert hm
      cases dictMem d k <;> simp
    by_cases hk : k = k2
    · subst hk
      rw [if_pos rfl]
      exact dictLookup_append_self d k v hm2
    · rw [if_neg hk]
      exact dictLookup_append_ne d k v k2 hk

theorem keys_dictInsert (d : List (Option String × Option String))
    (k v : Option String) :
    (dictInsert d k v).map Prod.fst =
      if dictMem d k then d.map Prod.fst else d.map Prod.fst ++ [k] := by
  unfold dictInsert
  by_cases hm : dictMem d k = true
  · rw [if_pos hm, if_pos hm, List.map_map]
    apply List.map_congr_left
    intro p _
    by_cases hp : p.1 = k
    · simp [Function.comp, hp]
    · simp [Function.comp, hp]
  · rw [if_neg hm, if_neg hm, List.map_append]
    rfl

theorem dictMem_eq_true_iff (d : List (Option String × Option String))
    (k : Option String) :
    dictMem d k = true ↔ k ∈ d.map Prod.fst := by
  induction d with
  | nil => simp [dictMem]
  | cons q qs ih =>
    by_cases hq : q.1 = k
    · simp [dictMem, hq]
    · have hq2 : ¬k = q.1 := fun h2 => hq h2.symm
      simp [dictMem, hq, hq2, ih]

theorem nodup_keys_dictInsert (d : List (Option String × Option String))
    (k v : Option String) (hd : (d.map Prod.fst).Nodup) :
    ((dictInsert d k v).map Prod.fst).Nodup := by
  rw [keys_dictInsert]
  by_cases hm : dictMem d k = true
  · rw [if_pos hm]
    exact hd
  · rw [if_neg hm]
    refine List.Nodup.append hd (List.nodup_singleton k) ?_
    intro a ha hb
    rw [List.mem_singleton] at hb
    subst hb
    exact hm ((dictMem_eq_true_iff d a).mpr ha)

theorem nodup_keys_foldl_insert (l : List Element) :
    ∀ d, (d.map Prod.fst).Nodup →
      ((l.foldl (fun d a => dictInsert d (a.get "addrtype") (a.get "addr")) d).map
        Prod.fst).Nodup := by
  induction l with
  | nil =>
    intro d hd
    exact hd
  | cons a as ih =>
    intro d hd
    rw [List.foldl_cons]
    exact ih _ (nodup_keys_dictInsert d _ _ hd)

theorem dictLookup_foldl_insert (l : List Element) (k : Option String) :
    ∀ d, dictLookup
        (l.foldl (fun d a => dictInsert d (a.get "addrtype") (a.get "addr")) d) k =
      l.foldl
        (fun acc a => if a.get "addrtype" = k then some (a.get "addr") else acc)
        (dictLookup d k) := by
  induction l with
  | nil =>
    intro d
    rfl
  | cons a as ih =>
    intro d
    rw [List.foldl_cons, List.foldl_cons, ih, dictLookup_dictInsert]

/-- C8. The address mapping of every parsed host has pairwise-distinct
address-type keys, and looking a type up returns the address of the last
address element of that type in document order (expressed by the
overriding fold on the right-hand side) — last write wins when the
source repeats a type. -/
theorem addresses_unique_keys_last_wins (h : Element) :
    ((hostAddresses h).map Prod.fst).Nodup ∧
    (∀ k, dictLookup (hostAddresses h) k =
      (h.findall "address").foldl
        (fun acc a => if a.get "addrtype" = k then some (a.get "addr") else acc)
        none) ∧
    (∀ hr, parseHost h = .ok hr → hr.addresses = hostAddresses h) := by
  refine ⟨?_, ?_, ?_⟩
  · exact nodup_keys_foldl_insert (h.findall "address") [] (by simp)
  · intro k
    exact dictLookup_foldl_insert (h.findall "address") k []
  · intro hr hok
    cases hfs : h.find "status" with
    | none =>
      simp only [parseHost, hfs] at hok
      simp at hok
    | some st =>
      cases hp : hostPorts h with
      | error e =>
        simp only [parseHost, hfs, hp] at hok
        simp at hok
      | ok ports =>
        simp only [parseHost, hfs, hp] at hok
        cases hok
        rfl

/-- The parse of `dupHost`, written out: the repeated `ipv4` key kept
once with the later address value. -/
def hrDup : HostResult :=
  { status := some "up", addresses := [(some "ipv4", some "10.0.0.2")],
    hostnames := [], ports := [] }

theorem addresses_unique_keys_last_wins_witness :
    ((hostAddresses dupHost).map Prod.fst).Nodup ∧
    dictLookup (hostAddresses dupHost) (some "ipv4") = some (some "10.0.0.2") ∧
    hrDup.addresses = hostAddresses dupHost :=
  ⟨(addresses_unique_keys_last_wins dupHost).1,
   by
     rw [(addresses_unique_keys_last_wins dupHost).2.1 (some "ipv4")]
     rfl,
   (addresses_unique_keys_last_wins dupHost).2.2 hrDup rfl⟩

/-- An nmaprun element with an `args` attribute declared but empty and
no `startstr` attribute. -/
def emptyAttrEl : Element := .mk "nmaprun" [("args", "")] []

/-- C9. A declared-but-empty attribute is preserved as the empty string
(an attribute list binding the key to the empty string makes the lookup
return it), a missing attribute yields the distinct absent value, the
two are never conflated, attribute access is a total function that
cannot fault, and the parse carries attribute lookups through to the
canonical fields unchanged (shown for the root scalars and the port
attributes). -/
theorem empty_vs_absent_attributes :
    (∀ (e : Element) (k : String),
      e.attrib.find? (fun p => p.1 == k) = some (k, "") → e.get k = some "") ∧
    (∀ (e : Element) (k : String),
      (∀ p ∈ e.attrib, (p.1 == k) = false) → e.get k = none) ∧
    (some "" ≠ (none : Option String)) ∧
    (∀ root r, parseNmapXml root = .ok r →
      r.scan_args = root.get "args" ∧ r.start_time = root.get "startstr") ∧
    (∀ p pr, parsePort p = .ok pr →
      pr.protocol = p.get "protocol" ∧ pr.portid = p.get "portid") := by
  refine ⟨?_, ?_, by simp, ?_, ?_⟩
  · intro e k hf
    simp [Element.get, hf]
  · intro e k hf
    have hn : e.attrib.find? (fun p => p.1 == k) = none :=
      List.find?_eq_none.mpr (fun x hx => by simp [hf x hx])
    simp [Element.get, hn]
  · intro root r hok
    cases hm : exceptMap parseHost (root.findall "host") with
    | error e =>
      simp only [parseNmapXml, hm] at hok
      simp at hok
    | ok hosts =>
      simp only [parseNmapXml, hm] at hok
      cases hok
      exact ⟨rfl, rfl⟩
  · intro p pr hok
    cases hst : p.find "state" with
    | none =>
      simp only [parsePort, hst] at hok
      simp at hok
    | some st =>
      cases hsv : p.find "service" with
      | none =>
        simp only [parsePort, hst, hsv] at hok
        cases hok
        exact ⟨rfl, rfl⟩
      | some se =>
        simp only [parsePort, hst, hsv] at hok
        by_cases hb : se.toBool = true
        · rw [if_pos hb] at hok
          cases hok
          exact ⟨rfl, rfl⟩
        · rw [if_neg hb] at hok
          cases hok
          exact ⟨rfl, rfl⟩

theorem empty_vs_absent_attributes_witness :
    emptyAttrEl.get "args" = some "" ∧ emptyAttrEl.get "startstr" = none :=
  ⟨empty_vs_absent_attributes.1 emptyAttrEl "args" rfl,
   empty_vs_absent_attributes.2.1 emptyAttrEl "startstr" (by decide)⟩

end NmapScanner
